import Mathlib

/-!
Verification of the session-persistence and streaming-generation core of the
tgi_chat repository.  The Python sources (`history_manager.py`, `chat_state.py`,
`ui.py`, `config.py`) are shallowly embedded below: dictionaries become
structures with `Option` fields, wall-clock times become `Int`, the filesystem
becomes an explicit `FS` record threaded through the functions, and the
external generation client and title generator become oracle parameters.
-/

/-! ### Filesystem model and the atomic write protocol
(`history_manager.save_chat_history`, lines 73-86)

A save touches two paths: the final file `{chat_id}.json` (`main`) and the
temporary file `{chat_id}.json.tmp` (`temp`).  `json.dump` writes the
serialized document to the temp file as a sequence of chunks; `os.replace`
then atomically moves the temp file onto the final path. -/

structure FS where
  main : Option (List String)
  temp : Option (List String)
deriving DecidableEq, Repr

inductive WStep where
  | openTemp
  | writeChunk (c : String)
  | rename
deriving DecidableEq, Repr

def applyStep (fs : FS) : WStep → FS
  | .openTemp => ⟨fs.main, some []⟩
  | .writeChunk c => ⟨fs.main, fs.temp.map (fun t => t ++ [c])⟩
  | .rename =>
    match fs.temp with
    | some doc => ⟨some doc, none⟩
    | none => fs

def runSteps (fs : FS) (steps : List WStep) : FS :=
  steps.foldl applyStep fs

/-- The step sequence of one successful save: open the temp file, write every
chunk of the serialized document into it, then rename it onto the final path
(`with open(temp_filename, "w") ... json.dump ... os.replace`). -/
def writeProtocol (doc : List String) : List WStep :=
  WStep.openTemp :: (doc.map WStep.writeChunk ++ [WStep.rename])

/-- Where an exception interrupts the `try` block of `save_chat_history`:
either during `json.dump` after `k` chunks were written, or in `os.replace`
itself (which fails atomically, leaving the final path untouched). -/
inductive WriteFailure where
  | duringDump (k : Nat)
  | duringRename
deriving DecidableEq, Repr

/-- The `except` handler: `os.remove(temp_filename)` when it exists. -/
def removeTemp (fs : FS) : FS := ⟨fs.main, none⟩

/-- The `try`/`except` write of `save_chat_history`: on success the protocol
runs to completion and the function reports success; on failure the temp file
is removed and failure is reported (`return None`), never raised. -/
def save_write (fs : FS) (doc : List String) : Option WriteFailure → FS × Bool
  | none => (runSteps fs (writeProtocol doc), true)
  | some (.duringDump k) =>
      (removeTemp (runSteps fs (WStep.openTemp :: (doc.take k).map WStep.writeChunk)), false)
  | some .duringRename =>
      (removeTemp (runSteps fs (WStep.openTemp :: doc.map WStep.writeChunk)), false)

lemma runSteps_append (fs : FS) (a b : List WStep) :
    runSteps fs (a ++ b) = runSteps (runSteps fs a) b := by
  simp [runSteps, List.foldl_append]

lemma runSteps_writeChunks (M : Option (List String)) (t cs : List String) :
    runSteps ⟨M, some t⟩ (cs.map WStep.writeChunk) = ⟨M, some (t ++ cs)⟩ := by
  induction cs generalizing t with
  | nil => simp [runSteps]
  | cons c cs ih =>
      simp only [List.map_cons, runSteps, List.foldl_cons, applyStep, Option.map_some]
      simpa [runSteps] using ih (t ++ [c])

lemma runSteps_writeProtocol (fs : FS) (doc : List String) :
    runSteps fs (writeProtocol doc) = ⟨some doc, none⟩ := by
  have h1 : runSteps fs [WStep.openTemp] = ⟨fs.main, some []⟩ := rfl
  have h2 := runSteps_writeChunks fs.main [] doc
  simp only [writeProtocol, List.cons_append]
  show runSteps fs ([WStep.openTemp] ++ (doc.map WStep.writeChunk ++ [WStep.rename])) = _
  rw [runSteps_append, h1, runSteps_append, h2]
  simp [runSteps, applyStep]

lemma main_runSteps_take_protocol (fs : FS) (doc : List String) (n : Nat) :
    (runSteps fs ((writeProtocol doc).take n)).main = fs.main ∨
      (runSteps fs ((writeProtocol doc).take n)).main = some doc := by
  by_cases h : (writeProtocol doc).length ≤ n
  · right
    rw [List.take_of_length_le h, runSteps_writeProtocol]
  · left
    have hn : n ≤ doc.length + 1 := by
      simp [writeProtocol] at h
      omega
    match n with
    | 0 => rfl
    | Nat.succ m =>
      have hm : m ≤ doc.length := by omega
      simp only [writeProtocol, List.take_succ_cons]
      have htake : (doc.map WStep.writeChunk ++ [WStep.rename]).take m
          = (doc.take m).map WStep.writeChunk := by
        rw [List.take_append_of_le_length (by simpa using hm)]
        exact Eq.symm (List.map_take WStep.writeChunk doc m)
      rw [htake]
      show (runSteps (applyStep fs .openTemp) ((doc.take m).map WStep.writeChunk)).main = fs.main
      have hopen : applyStep fs .openTemp = ⟨fs.main, some []⟩ := rfl
      rw [hopen, runSteps_writeChunks]

/-! ### Session state and `save_chat_history`
(`chat_state.ChatState.__init__`, `history_manager.save_chat_history`)

Wall-clock times are `Int` (so elapsed-time differences behave like Python
float subtraction).  The external collaborators of the save path are oracle
parameters: `ts` stands for `datetime.now().strftime(...)`, `gt` for the
result of `generate_chat_title` (which itself never raises), `ser` for the
chunk sequence `json.dump` emits, and `failure` for whether and where the
write raises. -/

/-- Python truthiness of an optional string (`None` and `""` are falsy). -/
def truthyStr : Option String → Bool
  | none => false
  | some s => !s.isEmpty

/-- The save-related fields of `ChatState` (chat_state.py lines 14-19). -/
structure ChatStateM where
  current_chat_id : Option String
  last_save_time : Int
  save_interval : Int
  pending_save : Bool
  last_save_attempt : Int
deriving DecidableEq, Repr

/-- `if not title: title = generate_chat_title(...)` — keep the caller's
title when truthy, otherwise use the generated one. -/
def mintTitle (title : Option String) (generated : String) : String :=
  if truthyStr title then title.getD "" else generated

/-- `chat_id = f"{timestamp}_{title.replace(' ', '_')}"`. -/
def mintChatId (ts : String) (t : String) : String :=
  ts ++ "_" ++ t.replace " " "_"

/-- What one call to `save_chat_history` produces: the returned id (or `None`),
the mutated `ChatState`, the filesystem, and whether the call reached the
write protocol at all (false exactly on the early `return` paths). -/
structure SaveResult where
  result : Option String
  st : ChatStateM
  fs : FS
  attempted : Bool
deriving DecidableEq, Repr

/-- `history_manager.save_chat_history(history, state, title, force)`. -/
def save_chat_history (history : List (String × Option String)) (st : ChatStateM)
    (title : Option String) (force : Bool) (now : Int) (ts gt : String)
    (ser : List String) (fs : FS) (failure : Option WriteFailure) : SaveResult :=
  if history = [] then ⟨none, st, fs, false⟩
  else if force = false && truthyStr st.current_chat_id
      && decide (now - st.last_save_time < st.save_interval) then
    ⟨st.current_chat_id, st, fs, false⟩
  else
    let minted :=
      if truthyStr st.current_chat_id then
        (st.current_chat_id.getD "", st)
      else
        let cid := mintChatId ts (mintTitle title gt)
        (cid, { st with current_chat_id := some cid })
    let w := save_write fs ser failure
    if w.2 then ⟨some minted.1, { minted.2 with last_save_time := now }, w.1, true⟩
    else ⟨none, minted.2, w.1, true⟩

/-- `ChatState.schedule_save` (chat_state.py lines 69-70). -/
def schedule_save (st : ChatStateM) : ChatStateM :=
  { st with pending_save := true }

/-- `ChatState.check_pending_saves` (chat_state.py lines 72-79). -/
def check_pending_saves (st : ChatStateM) (history : List (String × Option String))
    (now : Int) (ts gt : String) (ser : List String) (fs : FS)
    (failure : Option WriteFailure) : ChatStateM × FS :=
  if st.pending_save && decide (5 ≤ now - st.last_save_attempt) then
    let r := save_chat_history history st none true now ts gt ser fs failure
    let st1 := if truthyStr r.result then { r.st with pending_save := false } else r.st
    ({ st1 with last_save_attempt := now }, r.fs)
  else (st, fs)

/-- The final forced save of `ui.bot` (ui.py line 127): the returned failure
indicator is discarded. -/
def botFinalSave (history : List (String × Option String)) (st : ChatStateM)
    (now : Int) (ts gt : String) (ser : List String) (fs : FS)
    (failure : Option WriteFailure) : ChatStateM × FS :=
  let r := save_chat_history history st none true now ts gt ser fs failure
  (r.st, r.fs)

/-! ### The streaming generation turn
(`chat_state.inference`, `chat_state.ChatState.validate_message`,
`history_manager.build_message_history`)

The generation client is an oracle: attempt `i` either streams a list of
chunk contents (each `chunk.choices[0].delta.content`, possibly `None`) and
ends normally, or streams them and then raises on the next pull.  The
cancellation flag `state.is_stopped` is set by an external actor who watches
the yielded partials, so it is modelled as a predicate on the number of
deltas yielded so far. -/

/-- A message of the request payload: (role, content). -/
abbrev Msg := String × String

/-- `history_manager.build_message_history(history)`: the system instruction,
then each turn, skipping falsy assistant slots. -/
def build_message_history (history : List (String × Option String)) : List Msg :=
  ("system", "You are a helpful assistant.") ::
    (history.flatMap fun p =>
      ("user", p.1) :: (if truthyStr p.2 then [("assistant", p.2.getD "")] else []))

/-- The payload `inference` sends on every attempt (chat_state.py lines 91-92). -/
def requestOf (message : String) (history : List (String × Option String)) : List Msg :=
  build_message_history history ++ [("user", message)]

/-- One attempt of the generation client: the chunk contents it delivers, then
`err = some e` when the next pull raises `e`, `none` when the stream ends. -/
structure AttemptOutcome where
  chunks : List (Option String)
  err : Option String
deriving DecidableEq, Repr

/-- Python truthiness of `chunk.choices[0].delta.content`. -/
def contentTruthy : Option String → Bool
  | none => false
  | some s => !s.isEmpty

/-- The `for chunk in output` loop of `inference` (chat_state.py lines 107-113):
`buf` is the local `partial_message`, `total` the number of deltas yielded so
far in this generation turn.  Returns the partials yielded by this attempt,
the updated yield count, and whether the loop was broken by `is_stopped`. -/
def consumeChunks (stopped : Nat → Bool) :
    List (Option String) → String → Nat → List String × Nat × Bool
  | [], _, total => ([], total, false)
  | c :: cs, buf, total =>
    match stopped total, contentTruthy c with
    | true, _ => ([], total, true)
    | false, true =>
      let buf2 := buf ++ c.getD ""
      let r := consumeChunks stopped cs buf2 (total + 1)
      (buf2 :: r.1, r.2.1, r.2.2)
    | false, false => consumeChunks stopped cs buf total

/-- What one call of the generator `inference` yields to its caller. -/
structure InfResult where
  yields : List String
  payloads : List (List Msg)
  sleeps : Nat
deriving DecidableEq, Repr

/-- The terminal error text yielded after the last failed attempt
(chat_state.py line 119). -/
def errorMessage (maxRetries : Nat) (e : String) : String :=
  "Error: Failed to generate response after " ++ toString maxRetries
    ++ " attempts. " ++ e

/-- The `for attempt in range(max_retries)` loop of `inference`: `i` is the
current attempt index, `fuel` the remaining range length (`maxRetries - i`),
`total` the deltas yielded so far.  Each recursive step models
`time.sleep(1)`, the fixed one-unit pause between failed attempts. -/
def inferenceGo (payload : List Msg) (stopped : Nat → Bool)
    (outcomes : Nat → AttemptOutcome) (maxRetries : Nat) :
    Nat → Nat → Nat → InfResult :=
  fun i fuel total =>
    match fuel with
    | 0 => ⟨[], [], 0⟩
    | fuel' + 1 =>
      let o := outcomes i
      let c := consumeChunks stopped o.chunks "" total
      match o.err with
      | none => ⟨c.1, [payload], 0⟩
      | some e =>
        if c.2.2 then ⟨c.1, [payload], 0⟩
        else if i = maxRetries - 1 then
          ⟨c.1 ++ [errorMessage maxRetries e], [payload], 0⟩
        else
          let r := inferenceGo payload stopped outcomes maxRetries (i + 1) fuel' c.2.1
          ⟨c.1 ++ r.yields, payload :: r.payloads, r.sleeps + 1⟩

/-- `chat_state.inference(message, history, state, max_retries)`. -/
def inference (message : String) (history : List (String × Option String))
    (stopped : Nat → Bool) (outcomes : Nat → AttemptOutcome)
    (maxRetries : Nat) : InfResult :=
  inferenceGo (requestOf message history) stopped outcomes maxRetries 0 maxRetries 0

/-- Python `str.isspace()`: non-empty and every character is whitespace
(stated on the character list of the string). -/
def pyIsSpace (s : String) : Bool :=
  !s.data.isEmpty && s.data.all Char.isWhitespace

/-- `ChatState.validate_message` (chat_state.py lines 81-86). -/
def validate_message (message : String) : Bool × String :=
  if message.isEmpty || pyIsSpace message then (false, "Message cannot be empty")
  else if 3999 < message.length then (false, "Message too long (max 4096 characters)")
  else (true, "")

/-! ### Loading and listing persisted records
(`history_manager.load_chat_history`, `history_manager.list_chat_histories`)

A parsed JSON document is a record of optional fields; `now` stands for
`datetime.now().isoformat()`. -/

/-- The fields of a persisted chat document as parsed JSON: each may be
absent.  `history` is the list of (user, assistant-or-None) turns. -/
structure ChatDoc where
  chat_id : Option String
  title : Option String
  history : Option (List (String × Option String))
  timestamp : Option String
  last_modified : Option String
deriving DecidableEq, Repr

/-- `history_manager.load_chat_history(chat_id)`.  `file = none` means the
file does not exist; `file = some none` means it exists but reading or JSON
parsing raised; `file = some (some d)` is a successful parse.  The returned
document is the input dictionary with the missing optional fields
back-filled in place. -/
def load_chat_history (chat_id : String) (now : String)
    (file : Option (Option ChatDoc)) : Option ChatDoc :=
  match file with
  | none => none
  | some none => none
  | some (some d) =>
    if d.history = none then none
    else some { d with
      chat_id := some (d.chat_id.getD chat_id),
      title := some (d.title.getD chat_id),
      last_modified := some (d.last_modified.getD now) }

/-- One entry of the listing returned by `list_chat_histories`. -/
structure HistEntry where
  chat_id : String
  title : String
  last_modified : String
deriving DecidableEq, Repr

/-- A directory entry: the file name as enumerated by `os.listdir`, and the
parse outcome (`none` = opening/parsing the file raised). -/
structure DirEntry where
  name : String
  parsed : Option ChatDoc
deriving DecidableEq, Repr

/-- `file.endswith(".json")`, stated on the character list of the name. -/
def endsWithJson (s : String) : Bool :=
  ".json".data.isSuffixOf s.data

/-- The per-file body of the `list_chat_histories` loop: non-`.json` files
are ignored, unreadable files are skipped (`continue`), and missing fields
are defaulted (`data.get(...)`). -/
def entryOf (now : String) (e : DirEntry) : Option HistEntry :=
  if endsWithJson e.name then
    match e.parsed with
    | none => none
    | some d =>
      let cid := d.chat_id.getD (e.name.replace ".json" "")
      some ⟨cid, d.title.getD cid,
        d.last_modified.getD (d.timestamp.getD now)⟩
  else none

/-- The sort order of `histories.sort(key=lambda x: x["last_modified"],
reverse=True)`: newest first.  Python compares the timestamp strings by code
point, i.e. lexicographically on their character lists. -/
def lmDesc (a b : HistEntry) : Prop :=
  b.last_modified.data ≤ a.last_modified.data

instance : DecidableRel lmDesc := fun a b =>
  inferInstanceAs (Decidable (b.last_modified.data ≤ a.last_modified.data))

instance : IsTotal HistEntry lmDesc :=
  ⟨fun a b => le_total b.last_modified.data a.last_modified.data⟩

instance : IsTrans HistEntry lmDesc :=
  ⟨fun _ _ _ h1 h2 => le_trans h2 h1⟩

/-- `history_manager.list_chat_histories()` over a directory listing `dir`
(in `os.listdir` enumeration order).  Python `list.sort` is a stable sort;
`List.insertionSort` is stable, so it realizes the same ordering. -/
def list_chat_histories (now : String) (dir : List DirEntry) : List HistEntry :=
  List.insertionSort lmDesc (dir.filterMap (entryOf now))

/-! ### Generation parameter updates
(`chat_state.ChatState.update_parameter`, config.py)

Parameter values are rationals; the stored `config["parameters"]` dict is an
association list. -/

/-- Assignment into the parameters dict. -/
def setParam : List (String × ℚ) → String → ℚ → List (String × ℚ)
  | [], k, v => [(k, v)]
  | (k', v') :: ps, k, v =>
    if k' = k then (k, v) :: ps else (k', v') :: setParam ps k v

/-- The range checks of `update_parameter` (chat_state.py lines 51-56): a
`False` result means the `ValueError` branch is taken before any assignment.
Names other than the three known ones are not validated. -/
def paramInRange (name : String) (v : ℚ) : Bool :=
  if name = "temperature" then decide (0 ≤ v) && decide (v ≤ 2)
  else if name = "top_p" then decide (0 ≤ v) && decide (v ≤ 1)
  else if name = "max_tokens" then decide (64 ≤ v) && decide (v ≤ 4096)
  else true

/-- Observable outcome of `update_parameter`: the stored parameters after the
call, whether an error was printed, and whether an exception escaped (the
bare `except` makes the last impossible). -/
structure UpdateResult where
  params : List (String × ℚ)
  errorReported : Bool
  raised : Bool
deriving DecidableEq, Repr

/-- `ChatState.update_parameter(param_name, value)` (chat_state.py lines
48-61).  `saveOk` is whether `save_config` succeeds; its failure is caught by
the same handler, after the in-memory assignment. -/
def update_parameter (ps : List (String × ℚ)) (name : String) (v : ℚ)
    (saveOk : Bool) : UpdateResult :=
  if paramInRange name v then
    if saveOk then ⟨setParam ps name v, false, false⟩
    else ⟨setParam ps name v, true, false⟩
  else ⟨ps, true, false⟩

/-! ### Helper lemmas about the write protocol -/

lemma save_write_none (fs : FS) (doc : List String) :
    save_write fs doc none = (⟨some doc, none⟩, true) := by
  show (runSteps fs (writeProtocol doc), true) = _
  rw [runSteps_writeProtocol]

lemma save_write_some (fs : FS) (doc : List String) (wf : WriteFailure) :
    save_write fs doc (some wf) = (⟨fs.main, none⟩, false) := by
  cases wf with
  | duringDump k =>
      show (removeTemp (runSteps fs (WStep.openTemp :: (doc.take k).map WStep.writeChunk)),
          false) = _
      rw [show runSteps fs (WStep.openTemp :: (doc.take k).map WStep.writeChunk)
            = runSteps ⟨fs.main, some []⟩ ((doc.take k).map WStep.writeChunk) from rfl,
          runSteps_writeChunks]
      rfl
  | duringRename =>
      show (removeTemp (runSteps fs (WStep.openTemp :: doc.map WStep.writeChunk)), false) = _
      rw [show runSteps fs (WStep.openTemp :: doc.map WStep.writeChunk)
            = runSteps ⟨fs.main, some []⟩ (doc.map WStep.writeChunk) from rfl,
          runSteps_writeChunks]
      rfl

/-- Claim C1: every save serializes to the temp file and then installs it by a
single atomic rename: interrupting the protocol after any prefix of its steps
leaves the final file either at its pre-write contents (or absent, for a
first save) or at the complete post-write document, never partial; when the
write raises, the temp file is removed, the final file keeps its pre-write
contents, and `save_chat_history` returns the failure indicator `None`
instead of raising. -/
theorem c1_atomic_save (fs : FS) (doc : List String) (wf : WriteFailure)
    (history : List (String × Option String)) (st : ChatStateM)
    (title : Option String) (now : Int) (ts gt : String)
    (hne : history ≠ []) :
    (∀ n : Nat, (runSteps fs ((writeProtocol doc).take n)).main = fs.main ∨
        (runSteps fs ((writeProtocol doc).take n)).main = some doc) ∧
    save_write fs doc none = (⟨some doc, none⟩, true) ∧
    save_write fs doc (some wf) = (⟨fs.main, none⟩, false) ∧
    (save_chat_history history st title true now ts gt doc fs (some wf)).result = none := by
  refine ⟨main_runSteps_take_protocol fs doc, save_write_none fs doc,
    save_write_some fs doc wf, ?_⟩
  simp [save_chat_history, hne, save_write_some]

theorem c1_atomic_save_witness :
    (save_chat_history [("q", none)] ⟨some "c1", 0, 30, false, 0⟩ none true 1 "ts" "t"
        ["chunk"] ⟨some ["old"], none⟩ (some (WriteFailure.duringDump 0))).result = none :=
  (c1_atomic_save ⟨some ["old"], none⟩ ["chunk"] (WriteFailure.duringDump 0)
    [("q", none)] ⟨some "c1", 0, 30, false, 0⟩ none 1 "ts" "t" (by decide)).2.2.2

/-- Claim C2: a non-forced save of a record that already has an id, less than
`save_interval` after the last successful save, performs no write and returns
the existing id with nothing mutated; in every other case (forced, no id yet,
or interval elapsed) the call reaches the durable write, and
`last_save_time` is advanced exactly when that write succeeds. -/
theorem c2_debounced_save (history : List (String × Option String)) (st : ChatStateM)
    (title : Option String) (force : Bool) (now : Int) (ts gt : String)
    (ser : List String) (fs : FS) (failure : Option WriteFailure)
    (hne : history ≠ []) :
    (force = false → truthyStr st.current_chat_id = true →
        now - st.last_save_time < st.save_interval →
        save_chat_history history st title force now ts gt ser fs failure =
          ⟨st.current_chat_id, st, fs, false⟩) ∧
    ((force = true ∨ truthyStr st.current_chat_id = false ∨
        st.save_interval ≤ now - st.last_save_time) →
      (save_chat_history history st title force now ts gt ser fs failure).attempted = true ∧
      ((save_write fs ser failure).2 = true →
        (save_chat_history history st title force now ts gt ser fs failure).st.last_save_time
          = now) ∧
      ((save_write fs ser failure).2 = false →
        (save_chat_history history st title force now ts gt ser fs failure).st.last_save_time
          = st.last_save_time ∧
        (save_chat_history history st title force now ts gt ser fs failure).result = none)) := by
  constructor
  · intro hf ht hlt
    simp [save_chat_history, hne, hf, ht, hlt]
  · intro hother
    have hcond : (decide (force = false) && truthyStr st.current_chat_id
        && decide (now - st.last_save_time < st.save_interval)) = false := by
      rcases hother with h | h | h
      · simp [h]
      · simp [h]
      · simp [decide_eq_false_iff_not]
        intro _ _
        omega
    refine ⟨?_, ?_, ?_⟩
    · simp only [save_chat_history, if_neg hne]
      rw [if_neg (by simp_all)]
      by_cases hw : (save_write fs ser failure).2 <;> simp [hw]
    · intro hwt
      simp only [save_chat_history, if_neg hne]
      rw [if_neg (by simp_all)]
      simp [hwt]
    · intro hwf
      simp only [save_chat_history, if_neg hne]
      rw [if_neg (by simp_all)]
      simp [hwf]
      by_cases hid : truthyStr st.current_chat_id <;> simp [hid]

theorem c2_debounced_save_witness :
    save_chat_history [("hi", none)] ⟨some "x", 0, 30, false, 0⟩ none false 10 "ts" "t" ["d"]
        ⟨none, none⟩ none = ⟨some "x", ⟨some "x", 0, 30, false, 0⟩, ⟨none, none⟩, false⟩ := by
  have h := c2_debounced_save [("hi", none)] ⟨some "x", 0, 30, false, 0⟩ none false 10 "ts" "t"
    ["d"] ⟨none, none⟩ none (by decide)
  exact h.1 rfl (by decide) (by decide)

/-- Claim C3: against a generation client that fails on every attempt,
`inference` with the default `max_retries = 3` invokes the client exactly
three times (three payloads sent), pauses for the fixed one-unit sleep
exactly twice (between consecutive failed attempts), and its final — and
only — emitted delta is the designated failure message, surfaced as yielded
content rather than a raised exception. -/
theorem c3_retry_ceiling (message : String) (history : List (String × Option String))
    (errs : Nat → String) :
    inference message history (fun _ => false) (fun i => ⟨[], some (errs i)⟩) 3 =
      ⟨[errorMessage 3 (errs 2)],
       [requestOf message history, requestOf message history, requestOf message history],
       2⟩ := rfl


/-! ### Cancellation -/

/-- The successive values of `partial_message` while consuming deltas
`cs` starting from accumulated text `buf`. -/
def runningTexts (buf : String) : List String → List String
  | [] => []
  | c :: cs => (buf ++ c) :: runningTexts (buf ++ c) cs

lemma inferenceGo_succ (payload : List Msg) (stopped : Nat → Bool)
    (outcomes : Nat → AttemptOutcome) (maxR i fuel' total : Nat) :
    inferenceGo payload stopped outcomes maxR i (fuel' + 1) total =
      (let o := outcomes i
       let c := consumeChunks stopped o.chunks "" total
       match o.err with
       | none => ⟨c.1, [payload], 0⟩
       | some e =>
         if c.2.2 then ⟨c.1, [payload], 0⟩
         else if i = maxR - 1 then ⟨c.1 ++ [errorMessage maxR e], [payload], 0⟩
         else
           let r := inferenceGo payload stopped outcomes maxR (i + 1) fuel' c.2.1
           ⟨c.1 ++ r.yields, payload :: r.payloads, r.sleeps + 1⟩) := rfl

/-- Behaviour of the delta loop under a cancellation flag that becomes set
once `k` deltas have been yielded: the loop emits the running texts of the
first `k - total` remaining deltas and reports whether it was broken by the
flag. -/
lemma consumeChunks_stopAfter (k : Nat) :
    ∀ (cs : List String) (buf : String) (total : Nat),
      (∀ c ∈ cs, c.isEmpty = false) →
      consumeChunks (fun n => decide (k ≤ n)) (cs.map some) buf total =
        ((runningTexts buf cs).take (k - total),
          min (total + cs.length) (max total k),
          decide (0 < cs.length ∧ k < total + cs.length)) := by
  intro cs
  induction cs with
  | nil =>
      intro buf total _
      simp only [List.map_nil, consumeChunks, runningTexts, List.take_nil, List.length_nil]
      refine congrArg (Prod.mk []) (congrArg₂ Prod.mk (by omega) ?_)
      simp
  | cons c cs ih =>
      intro buf total h
      have hc : c.isEmpty = false := h c (List.mem_cons_self c cs)
      have hcs : ∀ x ∈ cs, x.isEmpty = false := fun x hx => h x (List.mem_cons_of_mem _ hx)
      have hct : contentTruthy (some c) = true := by
        simp [contentTruthy, hc]
      by_cases hk : k ≤ total
      · have hst : decide (k ≤ total) = true := decide_eq_true hk
        simp only [List.map_cons, consumeChunks, hst, hct, List.length_cons]
        refine congrArg₂ Prod.mk ?_ (congrArg₂ Prod.mk (by omega) ?_)
        · rw [show k - total = 0 by omega, List.take_zero]
        · rw [eq_comm, decide_eq_true_eq]
          omega
      · have hst : decide (k ≤ total) = false := decide_eq_false hk
        simp only [List.map_cons, consumeChunks, hst, hct, Option.getD_some, List.length_cons]
        rw [ih (buf ++ c) (total + 1) hcs]
        dsimp only
        have hsub : k - total = (k - (total + 1)) + 1 := by omega
        refine congrArg₂ Prod.mk ?_ (congrArg₂ Prod.mk (by omega) ?_)
        · rw [show runningTexts buf (c :: cs) = (buf ++ c) :: runningTexts (buf ++ c) cs
              from rfl, hsub, List.take_succ_cons]
        · rw [decide_eq_decide]
          omega

/-- Claim C4: the cancellation flag is polled at each delta boundary; once it
is set the turn stops at that boundary, keeps exactly the partial text
yielded so far as the final content, makes no further client invocation and
performs no retry sleep — even when the interrupted stream would have failed
afterwards (`e` arbitrary).  With deltas `["a","b","c"]` and cancellation
after the first delta, the final content is exactly `"a"` (see the witness). -/
theorem c4_cancellation (message : String) (history : List (String × Option String))
    (stopK : Nat) (cs : List String) (e : Option String)
    (hc : ∀ c ∈ cs, c.isEmpty = false) (hk : stopK < cs.length) :
    inference message history (fun n => decide (stopK ≤ n)) (fun _ => ⟨cs.map some, e⟩) 3 =
      ⟨(runningTexts "" cs).take stopK, [requestOf message history], 0⟩ := by
  have hcon := consumeChunks_stopAfter stopK cs "" 0 hc
  have hstp : decide (0 < cs.length ∧ stopK < 0 + cs.length) = true := by
    rw [decide_eq_true_eq]
    omega
  cases e with
  | none =>
      show inferenceGo (requestOf message history) (fun n => decide (stopK ≤ n))
          (fun _ => ⟨cs.map some, none⟩) 3 0 (2 + 1) 0 = _
      rw [inferenceGo_succ]
      dsimp only
      rw [hcon]
      simp
  | some err =>
      show inferenceGo (requestOf message history) (fun n => decide (stopK ≤ n))
          (fun _ => ⟨cs.map some, some err⟩) 3 0 (2 + 1) 0 = _
      rw [inferenceGo_succ]
      dsimp only
      rw [hcon]
      dsimp only
      rw [hstp]
      simp

theorem c4_cancellation_witness :
    inference "hi" [] (fun n => decide (1 ≤ n))
      (fun _ => ⟨[some "a", some "b", some "c"], none⟩) 3 =
      ⟨["a"], [[("system", "You are a helpful assistant."), ("user", "hi")]], 0⟩ :=
  (c4_cancellation "hi" [] 1 ["a", "b", "c"] none (by decide) (by decide)).trans (by decide)

/-! ### Validation, listing, loading, parameters, deferred saves -/

/-- Claim C5 (divergence evidence): `validate_message` classifies the empty
and the whitespace-only message as invalid, yet the generation turn sends
the request to the client carrying exactly that message: `inference` never
consults `validate_message` (it has no caller in the repository), performs
its network activity unconditionally, and no `ValidationError` exists or is
raised. -/
theorem c5_validation_unwired :
    validate_message "" = (false, "Message cannot be empty") ∧
    validate_message "   " = (false, "Message cannot be empty") ∧
    (inference "" [] (fun _ => false) (fun _ => ⟨[some "ok"], none⟩) 3).payloads =
      [[("system", "You are a helpful assistant."), ("user", "")]] ∧
    (inference "   " [] (fun _ => false) (fun _ => ⟨[some "ok"], none⟩) 3).payloads =
      [[("system", "You are a helpful assistant."), ("user", "   ")]] := by decide

/-- Claim C6 (counterexample): with two persisted records carrying the same
`last_modified`, the listing depends on the order in which the directory is
enumerated, and with three equal-timestamp records enumerated as a, c, b the
output order is a, c, b — neither ascending nor descending id order, so ties
are not resolved by id. -/
theorem c6_ties_not_id_ordered :
    (list_chat_histories "n"
        [⟨"b.json", some ⟨some "b", none, none, none, some "T"⟩⟩,
         ⟨"a.json", some ⟨some "a", none, none, none, some "T"⟩⟩] ≠
      list_chat_histories "n"
        [⟨"a.json", some ⟨some "a", none, none, none, some "T"⟩⟩,
         ⟨"b.json", some ⟨some "b", none, none, none, some "T"⟩⟩]) ∧
    (list_chat_histories "n"
        [⟨"a.json", some ⟨some "a", none, none, none, some "T"⟩⟩,
         ⟨"c.json", some ⟨some "c", none, none, none, some "T"⟩⟩,
         ⟨"b.json", some ⟨some "b", none, none, none, some "T"⟩⟩]).map HistEntry.chat_id
      = ["a", "c", "b"] := by decide

/-- Claim C6 (amended): `list()` returns the entries of the readable `.json`
files, ordered by `last_modified` descending; the sort is stable, so entries
with equal `last_modified` appear in directory-enumeration order (not id
order), and the listing is therefore not determined by the record set
alone. -/
theorem c6_listing_sorted (now : String) (dir : List DirEntry) :
    List.Sorted lmDesc (list_chat_histories now dir) ∧
    List.Perm (list_chat_histories now dir) (dir.filterMap (entryOf now)) :=
  ⟨List.sorted_insertionSort lmDesc _, List.perm_insertionSort lmDesc _⟩

/-- Claim C7: an out-of-range parameter value (temperature outside `[0,2]`,
top_p outside `[0,1]`, max_tokens outside `[64,4096]`) is rejected before
the assignment: the stored parameters are unchanged, the error is printed,
and nothing is raised. -/
theorem c7_param_range_rejected (ps : List (String × ℚ)) (name : String) (v : ℚ)
    (saveOk : Bool) (h : paramInRange name v = false) :
    update_parameter ps name v saveOk = ⟨ps, true, false⟩ := by
  simp [update_parameter, h]

theorem c7_param_range_rejected_witness :
    update_parameter [("temperature", 1)] "temperature" 5 true =
      ⟨[("temperature", 1)], true, false⟩ :=
  c7_param_range_rejected [("temperature", 1)] "temperature" 5 true (by decide)

/-- Claim C8 (divergence evidence): when the forced final save of `ui.bot`
fails, the returned `None` is discarded and the state is left exactly as it
was — in particular `pending_save` is still `false`, so `check_pending_saves`
(whose retry machinery the third conjunct exhibits exists via
`schedule_save`) does nothing: no deferred-save recovery ever runs. -/
theorem c8_failed_save_not_deferred :
    (botFinalSave [("hi", some "there")] ⟨some "chat1", 0, 30, false, 0⟩ 100 "ts" "t" ["d"]
        ⟨some ["old"], none⟩ (some (WriteFailure.duringDump 1))).1 =
      ⟨some "chat1", 0, 30, false, 0⟩ ∧
    check_pending_saves ⟨some "chat1", 0, 30, false, 0⟩ [("hi", some "there")] 100 "ts" "t"
        ["d"] ⟨some ["old"], none⟩ none =
      (⟨some "chat1", 0, 30, false, 0⟩, ⟨some ["old"], none⟩) ∧
    (schedule_save ⟨some "chat1", 0, 30, false, 0⟩).pending_save = true := by decide

lemma mintChatId_isEmpty (ts t : String) : (mintChatId ts t).isEmpty = false := by
  cases h : (mintChatId ts t).isEmpty
  · rfl
  · exfalso
    have he : mintChatId ts t = "" := (String.isEmpty_iff _).mp h
    have hlen := congrArg String.length he
    simp only [mintChatId, String.length_append] at hlen
    have hone : ("_" : String).length = 1 := by decide
    have hzero : ("" : String).length = 0 := by decide
    omega

/-- Claim C9: on a first save (no current id), the minted id is written into
the session state before the durable write is attempted, so a failing write
returns `None` while the state now carries an id that has no on-disk
representation (the final file is still absent); every subsequent save
reuses that id instead of minting a new one from its own timestamp. -/
theorem c9_id_assigned_before_write (history : List (String × Option String))
    (st : ChatStateM) (title : Option String) (force : Bool) (now : Int)
    (ts gt : String) (ser : List String) (fs : FS) (wf : WriteFailure)
    (r : SaveResult)
    (hne : history ≠ []) (hid : st.current_chat_id = none) (hfs : fs.main = none)
    (hr : r = save_chat_history history st title force now ts gt ser fs (some wf)) :
    r.result = none ∧
    r.st.current_chat_id = some (mintChatId ts (mintTitle title gt)) ∧
    r.fs.main = none ∧
    (∀ (history2 : List (String × Option String)) (title2 : Option String)
        (now2 : Int) (ts2 gt2 : String) (ser2 : List String) (fs2 : FS),
      history2 ≠ [] →
      (save_chat_history history2 r.st title2 true now2 ts2 gt2 ser2 fs2 none).result =
        some (mintChatId ts (mintTitle title gt)) ∧
      (save_chat_history history2 r.st title2 true now2 ts2 gt2 ser2 fs2 none).st.current_chat_id
        = some (mintChatId ts (mintTitle title gt))) := by
  have hrr : r = ⟨none, { st with current_chat_id := some (mintChatId ts (mintTitle title gt)) },
      ⟨fs.main, none⟩, true⟩ := by
    rw [hr]
    simp [save_chat_history, hne, hid, truthyStr, save_write_some]
  subst hrr
  refine ⟨rfl, rfl, hfs, ?_⟩
  intro history2 title2 now2 ts2 gt2 ser2 fs2 hne2
  constructor
  · simp [save_chat_history, hne2, truthyStr, mintChatId_isEmpty, save_write_none]
  · simp [save_chat_history, hne2, truthyStr, mintChatId_isEmpty, save_write_none]

theorem c9_id_assigned_before_write_witness :
    (save_chat_history [("q", none)] ⟨none, 0, 30, false, 0⟩ (some "My Title") true 1
        "20240101" "g" ["chunk"] ⟨none, none⟩ (some (WriteFailure.duringDump 0))).result =
      none ∧
    (save_chat_history [("q", none)] ⟨none, 0, 30, false, 0⟩ (some "My Title") true 1
        "20240101" "g" ["chunk"] ⟨none, none⟩
        (some (WriteFailure.duringDump 0))).st.current_chat_id =
      some (mintChatId "20240101" (mintTitle (some "My Title") "g")) := by
  have h := c9_id_assigned_before_write [("q", none)] ⟨none, 0, 30, false, 0⟩
    (some "My Title") true 1 "20240101" "g" ["chunk"] ⟨none, none⟩
    (WriteFailure.duringDump 0) _ (by decide) rfl rfl rfl
  exact ⟨h.1, h.2.1⟩

/-- Claim C10: for a stored document that parses but lacks the `history`
field, `load` returns `None` (and `history` is the only field whose absence
does this); when `history` is present, only `chat_id` (defaulting to the
requested id), `title` (defaulting to the requested id) and `last_modified`
(defaulting to now) are back-filled, everything else is returned as
stored. -/
theorem c10_load_requires_history (cid now : String) (d : ChatDoc) :
    (load_chat_history cid now (some (some d)) = none ↔ d.history = none) ∧
    (∀ h, d.history = some h →
      load_chat_history cid now (some (some d)) =
        some ⟨some (d.chat_id.getD cid), some (d.title.getD cid), some h,
          d.timestamp, some (d.last_modified.getD now)⟩) := by
  obtain ⟨dc, dt, dh, dts, dlm⟩ := d
  constructor
  · cases dh <;> simp [load_chat_history]
  · intro h hh
    dsimp only at hh
    subst hh
    simp [load_chat_history]

theorem c10_load_requires_history_witness :
    load_chat_history "id1" "NOW"
        (some (some ⟨none, none, some [("u", some "a")], none, none⟩)) =
      some ⟨some "id1", some "id1", some [("u", some "a")], none, some "NOW"⟩ ∧
    load_chat_history "id1" "NOW"
        (some (some ⟨some "x", some "t", none, some "ts", some "lm"⟩)) = none := by
  have h1 := c10_load_requires_history "id1" "NOW" ⟨none, none, some [("u", some "a")], none, none⟩
  have h2 := c10_load_requires_history "id1" "NOW" ⟨some "x", some "t", none, some "ts", some "lm"⟩
  exact ⟨by simpa using h1.2 [("u", some "a")] rfl, h2.1.mpr rfl⟩
